import Mathlib

/-!
# Verification of the natstat_manager live-game delta-tracking subsystem

A shallow embedding, in Lean 4, of the live-game subsystem of the
`natstat_manager` repository:

* `app/common/utils.py` — payload accessors (`get_natstat_value`,
  `get_game_datetime`, `is_game_final`);
* `app/background/live_games/converter.py` — `GameChangeConvertor`;
* `app/background/live_games/storage.py` — `InmemoryStorage`;
* `app/background/live_games/manager.py` — `GameUpdateManager`.

Modelling conventions:

* Provider JSON payloads are modelled by `NValue`: a value is either a string
  or a string-keyed object (the shapes the subsystem touches).  Python `dict`s
  are association lists with unique keys; lookup takes the first match.
* Python `datetime` values are modelled as `Int` minutes (the subsystem's own
  time granularity: game times are parsed with `%H:%M`, so they land on whole
  minutes; `timedelta(hours=h)` becomes `60*h`).  The proleptic-Gregorian
  ordinal (`datetime.toordinal`) maps a calendar date to a day number.
* The `pytz` conversion `ny_tz.localize(dt).astimezone(utc)` is environment
  data (the tz database); it is kept abstract as a parameter
  `nyToUtc : Int → Int` threaded through every function that calls
  `get_game_datetime`.
* A Python exception escaping a function is modelled by `Except Unit`;
  `.error ()` stands for any raised exception (KeyError / ValueError /
  AttributeError / pydantic validation error), which the callers under
  study never catch.
* Ambient clock reads (`datetime.now()`, `get_utc_now()`) become explicit
  `Int` parameters of the functions that perform them.
* The store `self._storage : dict[str, GameLastInfo]` is an insertion-ordered
  association list with unique keys; `insertS` replaces in place or appends,
  matching Python dict assignment.

Definitions come first, then the theorems about them.
-/

/-- A provider JSON value as used by the live-game subsystem: either a string
leaf or a string-keyed object (Python `dict`). -/
inductive NValue where
  | vStr (s : String)
  | vDict (entries : List (String × NValue))

/-- First-match lookup in a Python dict's entry list (`d[k]` / `d.get(k)`). -/
def lookupEntries (es : List (String × NValue)) (k : String) : Option NValue :=
  match es with
  | [] => none
  | (k', v) :: rest => if k' = k then some v else lookupEntries rest k

/-- Python `d[k]`: raises `KeyError` when the key is missing and `TypeError`
when the receiver is a string. -/
def getKey (d : NValue) (k : String) : Except Unit NValue :=
  match d with
  | .vDict es =>
    match lookupEntries es k with
    | some v => .ok v
    | none => .error ()
  | .vStr _ => .error ()

/-- Python `k in d` (membership test used by `response_to_game_data`). -/
def hasKey (d : NValue) (k : String) : Bool :=
  match d with
  | .vDict es => (lookupEntries es k).isSome
  | .vStr _ => false

/-- Python `len` on the values the code applies it to (strings and dicts). -/
def pyLen (v : NValue) : Nat :=
  match v with
  | .vStr s => s.length
  | .vDict es => es.length

/-- Requires a string value, as the code does implicitly when it calls string
methods on a payload field (`AttributeError` otherwise). -/
def asStr (v : NValue) : Except Unit String :=
  match v with
  | .vStr s => .ok s
  | .vDict _ => .error ()

/-- `jmespath.search` restricted to dotted key paths, which is the only form
the subsystem uses (`"score.visitor"`, `"stats.playbyplay"`): total, returns
`none` on a missing key or on descending into a non-object. -/
def searchPath (path : List String) (v : NValue) : Option NValue :=
  match path with
  | [] => some v
  | k :: ks =>
    match v with
    | .vDict es =>
      match lookupEntries es k with
      | some v' => searchPath ks v'
      | none => none
    | .vStr _ => none

/-- Numeric value of a decimal digit list (`none` when empty or non-digit),
the core of Python `int(...)` applied to the provider's numeric strings. -/
def digitsVal (cs : List Char) : Option Nat :=
  match cs with
  | [] => none
  | _ =>
    if cs.all Char.isDigit then
      some (cs.foldl (fun a c => a * 10 + (c.toNat - 48)) 0)
    else none

/-- Python `int(s)` on the provider's numeric strings: optional leading minus
sign then decimal digits; anything else raises `ValueError` (`none` here). -/
def pyParseInt (s : String) : Option Int :=
  match s.data with
  | '-' :: rest => (digitsVal rest).map (fun n => -(n : Int))
  | cs => (digitsVal cs).map (fun n => (n : Int))

/-- `get_natstat_value(data, path, int)` from `app/common/utils.py`: a dict
placeholder or a missing path yields `none`; a string value is converted with
`int(...)`, whose `ValueError` propagates. -/
def get_natstat_value_int (data : NValue) (path : List String) :
    Except Unit (Option Int) :=
  match searchPath path data with
  | none => .ok none
  | some (.vDict _) => .ok none
  | some (.vStr s) =>
    match pyParseInt s with
    | some n => .ok (some n)
    | none => .error ()

/-- `get_natstat_value(data, path, str)` from `app/common/utils.py`: a dict
placeholder or a missing path yields `none`; `str` on a string is the
identity, so this variant never raises. -/
def get_natstat_value_str (data : NValue) (path : List String) :
    Option String :=
  match searchPath path data with
  | none => none
  | some (.vDict _) => none
  | some (.vStr s) => some s

/-- `is_game_final` from `app/common/utils.py`:
`"final" in game_status.lower()`. -/
def containsFinal (cs : List Char) : Bool :=
  match cs with
  | [] => false
  | _ :: rest => ['f', 'i', 'n', 'a', 'l'].isPrefixOf cs || containsFinal rest

/-- `is_game_final(game_status)`: case-insensitive substring test. -/
def is_game_final (game_status : String) : Bool :=
  containsFinal (game_status.data.map Char.toLower)

/-- Gregorian leap-year test (as used by `datetime`'s calendar). -/
def isLeap (y : Nat) : Bool :=
  y % 4 == 0 && (y % 100 != 0 || y % 400 == 0)

/-- Length of a month in the proleptic Gregorian calendar. -/
def daysInMonth (y m : Nat) : Nat :=
  if m = 2 then (if isLeap y then 29 else 28)
  else if m = 4 ∨ m = 6 ∨ m = 9 ∨ m = 11 then 30
  else 31

/-- Days in year `y` strictly before month `m` (month numbers start at 1). -/
def daysBeforeMonth (y : Nat) : Nat → Nat
  | 0 => 0
  | 1 => 0
  | m + 1 => daysBeforeMonth y m + daysInMonth y m

/-- Days strictly before January 1 of year `y` counting from year 1, i.e.
`datetime.date(y, 1, 1).toordinal() - 1`. -/
def daysBeforeYear (y : Nat) : Nat :=
  365 * (y - 1) + (y - 1) / 4 - (y - 1) / 100 + (y - 1) / 400

/-- `datetime.date(y, m, d).toordinal()`. -/
def toOrdinal (y m d : Nat) : Nat :=
  daysBeforeYear y + daysBeforeMonth y m + d

/-- A naive `datetime` with minute precision, encoded as minutes since the
calendar's origin (ordinal day times 1440 plus minutes within the day). -/
def toMinutes (y m d h mi : Nat) : Int :=
  ((toOrdinal y m d) * 1440 + h * 60 + mi : Nat)

/-- Decimal value of one digit character, `none` for a non-digit. -/
def digitVal (c : Char) : Option Nat :=
  if c.isDigit then some (c.toNat - 48) else none

/-- `datetime.strptime(s, "%Y-%m-%d")` on the zero-padded dates the provider
sends: exactly `YYYY-MM-DD`, validating the ranges `datetime` enforces
(year ≥ 1, month 1–12, day 1–month length). `none` models `ValueError`. -/
def parseDate (cs : List Char) : Option (Nat × Nat × Nat) :=
  match cs with
  | [y1, y2, y3, y4, '-', m1, m2, '-', d1, d2] =>
    match digitVal y1, digitVal y2, digitVal y3, digitVal y4,
          digitVal m1, digitVal m2, digitVal d1, digitVal d2 with
    | some a, some b, some c, some e, some f, some g, some h, some i =>
      let y := ((a * 10 + b) * 10 + c) * 10 + e
      let m := f * 10 + g
      let d := h * 10 + i
      if 1 ≤ y ∧ 1 ≤ m ∧ m ≤ 12 ∧ 1 ≤ d ∧ d ≤ daysInMonth y m then
        some (y, m, d)
      else none
    | _, _, _, _, _, _, _, _ => none
  | _ => none

/-- `datetime.strptime(t, "%H:%M")` for the time part: one or two digits for
the hour, two (or one) for the minute, with `%H ≤ 23` and `%M ≤ 59`. -/
def parseHM (cs : List Char) : Option (Nat × Nat) :=
  match cs with
  | [a, b, ':', c, d] =>
    match digitVal a, digitVal b, digitVal c, digitVal d with
    | some a', some b', some c', some d' =>
      let h := a' * 10 + b'
      let mi := c' * 10 + d'
      if h ≤ 23 ∧ mi ≤ 59 then some (h, mi) else none
    | _, _, _, _ => none
  | [a, ':', c, d] =>
    match digitVal a, digitVal c, digitVal d with
    | some a', some c', some d' =>
      let mi := c' * 10 + d'
      if mi ≤ 59 then some (a', mi) else none
    | _, _, _ => none
  | [a, b, ':', c] =>
    match digitVal a, digitVal b, digitVal c with
    | some a', some b', some c' =>
      let h := a' * 10 + b'
      if h ≤ 23 then some (h, c') else none
    | _, _, _ => none
  | [a, ':', c] =>
    match digitVal a, digitVal c with
    | some a', some c' => some (a', c')
    | _, _ => none
  | _ => none

/-- `datetime.strptime(s, "%Y-%m-%d %H:%M")`: a ten-character date, one
space, then the time part. -/
def parseDateTime (cs : List Char) : Option (Nat × Nat × Nat × Nat × Nat) :=
  match cs.drop 10 with
  | ' ' :: timePart =>
    match parseDate (cs.take 10), parseHM timePart with
    | some (y, m, d), some (h, mi) => some (y, m, d, h, mi)
    | _, _ => none
  | _ => none

/-- Python `s.replace("-00", "-01")`: left-to-right, non-overlapping
replacement of every occurrence, specialised to the one pattern the source
uses (`app/common/utils.py`, `get_game_datetime`). -/
def replace00 (cs : List Char) : List Char :=
  match cs with
  | [] => []
  | c :: rest =>
    if c = '-' ∧ rest.take 2 = ['0', '0'] then
      '-' :: '0' :: '1' :: replace00 (rest.drop 2)
    else
      c :: replace00 rest
termination_by cs.length
decreasing_by
  · simp only [List.length_drop, List.length_cons]; omega
  · simp only [List.length_cons]; omega

/-- The gameday fixup in `get_game_datetime`: if the string ends in `"-00"`
(the provider's `2014-10-00` edge case) replace `"-00"` with `"-01"`. -/
def fixGameday (cs : List Char) : List Char :=
  if ['-', '0', '0'].isSuffixOf cs then replace00 cs else cs

/-- `get_game_datetime(game_data)` from `app/common/utils.py`.

`nyToUtc` abstracts `ny_tz.localize(dt).astimezone(utc).replace(tzinfo=None)`,
the pytz America/New_York → UTC conversion on naive datetimes (tz-database
driven, hence a parameter of the embedding).

Reads `game_data["gameday"]` (KeyError if missing, AttributeError if not a
string), applies the `"-00"` fixup, then: a dict-shaped `starttime` parses
the gameday alone (midnight); otherwise `gameday + " " + starttime` is parsed
with `"%Y-%m-%d %H:%M"`.  Parse failures raise (`ValueError`). -/
def get_game_datetime (nyToUtc : Int → Int) (game_data : NValue) :
    Except Unit Int := do
  let gdv ← getKey game_data "gameday"
  let gameday ← asStr gdv
  let ds := fixGameday gameday.data
  let stv ← getKey game_data "starttime"
  match stv with
  | .vDict _ =>
    match parseDate ds with
    | some (y, m, d) => .ok (nyToUtc (toMinutes y m d 0 0))
    | none => .error ()
  | .vStr st =>
    match parseDateTime (ds ++ ' ' :: st.data) with
    | some (y, m, d, h, mi) => .ok (nyToUtc (toMinutes y m d h mi))
    | none => .error ()

/-- `GameType` from `app/common/types.py`. -/
inductive GameType where
  | today
  | early
  | live
  | early_final
  deriving DecidableEq

/-- `GameShort` from `app/common/types.py`. -/
structure GameShort where
  game_id : Int
  sport_code : String
  deriving DecidableEq

/-- `GameShort.key`: `f"{sport_code}_{game_id}"`. -/
def GameShort.key (gs : GameShort) : String :=
  gs.sport_code ++ "_" ++ toString gs.game_id

/-- `GameLastInfo` from `app/common/types.py`.  `playbyplay_ids` is a Python
`set[int] | None`, modelled as `Option (Finset Int)`. -/
structure GameLastInfo where
  game_short : GameShort
  gamedatetime : Int
  status : String
  score_visitor : Option Int := none
  score_home : Option Int := none
  score_overtime : Option String := none
  playbyplay_ids : Option (Finset Int) := none

/-- `GameChanges` from `app/common/types.py`: the per-cycle delta.  A `none`
field means "unchanged" (Python `None`); `playbyplay_changes` keeps the raw
payload shape of the new events. -/
structure GameChanges where
  game_short : GameShort
  status : Option String
  gamedatetime : Option Int
  score_visitor : Option Int := none
  score_home : Option Int := none
  score_overtime : Option String := none
  playbyplay_changes : Option (List NValue) := none
  game_data : NValue

/-- `game_data["status"]` as consumed by the pydantic `str` fields: a missing
key raises `KeyError`; a dict-shaped value fails pydantic validation when the
constructed model is built, so both are modelled as errors. -/
def statusStr (game_data : NValue) : Except Unit String := do
  asStr (← getKey game_data "status")

/-- `int(item["id"])` on one play-by-play record: `KeyError` on a missing id,
`ValueError`/`TypeError` on a non-numeric or dict-shaped one. -/
def itemId (item : NValue) : Except Unit Int := do
  let v ← getKey item "id"
  let s ← asStr v
  match pyParseInt s with
  | some n => .ok n
  | none => .error ()

/-- `GameChangeConvertor.get_changed_status`. -/
def get_changed_status (last_info : Option GameLastInfo) (game_data : NValue) :
    Except Unit (Option String) := do
  let s ← statusStr game_data
  match last_info with
  | none => .ok (some s)
  | some li => if li.status ≠ s then .ok (some s) else .ok none

/-- `GameChangeConvertor.get_changed_gamedatetime`. -/
def get_changed_gamedatetime (nyToUtc : Int → Int)
    (last_info : Option GameLastInfo) (game_data : NValue) :
    Except Unit (Option Int) := do
  let new_gamedt ← get_game_datetime nyToUtc game_data
  match last_info with
  | none => .ok (some new_gamedt)
  | some li =>
    if new_gamedt ≠ li.gamedatetime then .ok (some new_gamedt) else .ok none

/-- `GameChangeConvertor.get_changed_score_visitor`. -/
def get_changed_score_visitor (last_info : Option GameLastInfo)
    (game_data : NValue) : Except Unit (Option Int) := do
  let score_visitor ← get_natstat_value_int game_data ["score", "visitor"]
  match last_info with
  | none => .ok score_visitor
  | some li =>
    if li.score_visitor ≠ score_visitor then .ok score_visitor else .ok none

/-- `GameChangeConvertor.get_changed_score_home`. -/
def get_changed_score_home (last_info : Option GameLastInfo)
    (game_data : NValue) : Except Unit (Option Int) := do
  let score_home ← get_natstat_value_int game_data ["score", "home"]
  match last_info with
  | none => .ok score_home
  | some li =>
    if li.score_home ≠ score_home then .ok score_home else .ok none

/-- `GameChangeConvertor.get_changed_score_overtime` (total: the `str`
conversion of a string value never raises). -/
def get_changed_score_overtime (last_info : Option GameLastInfo)
    (game_data : NValue) : Option String :=
  let score_overtime := get_natstat_value_str game_data ["score", "overtime"]
  match last_info with
  | none => score_overtime
  | some li =>
    if li.score_overtime ≠ score_overtime then score_overtime else none

/-- The membership test `int(item["id"]) in new_pbps_ids` used by the list
comprehension in `get_play_by_play_changes`; by the time the comprehension
runs, every id has already been converted successfully once. -/
def idMem (newIds : Finset Int) (item : NValue) : Bool :=
  match itemId item with
  | .ok n => n ∈ newIds
  | .error _ => false

/-- `GameChangeConvertor.get_play_by_play_changes`: `none` when
`stats.playbyplay` is absent; otherwise the records (the dict's values) whose
id is not among the previously known ids (all of them when `last_info` is
absent or has no known ids). -/
def get_play_by_play_changes (last_info : Option GameLastInfo)
    (game_data : NValue) : Except Unit (Option (List NValue)) :=
  match searchPath ["stats", "playbyplay"] game_data with
  | none => .ok none
  | some (.vStr _) => .error ()
  | some (.vDict es) => do
    let pbps := es.map (fun kv => kv.2)
    let ids ← pbps.mapM itemId
    let online_pbps_ids : Finset Int := ids.toFinset
    let new_pbps_ids : Finset Int :=
      match last_info with
      | none => online_pbps_ids
      | some li =>
        match li.playbyplay_ids with
        | none => online_pbps_ids
        | some prev => online_pbps_ids \ prev
    .ok (some (pbps.filter (idMem new_pbps_ids)))

/-- `GameChangeConvertor.get_game_changes`: the diff entry point, run in the
source's evaluation order (an exception in any step aborts the whole diff). -/
def get_game_changes (nyToUtc : Int → Int) (game_short : GameShort)
    (game_data : NValue) (last_info : Option GameLastInfo) :
    Except Unit GameChanges := do
  let status ← get_changed_status last_info game_data
  let gamedatetime ← get_changed_gamedatetime nyToUtc last_info game_data
  let score_visitor ← get_changed_score_visitor last_info game_data
  let score_home ← get_changed_score_home last_info game_data
  let score_overtime := get_changed_score_overtime last_info game_data
  let playbyplay_changes ← get_play_by_play_changes last_info game_data
  .ok { game_short := game_short
        status := status
        gamedatetime := gamedatetime
        score_visitor := score_visitor
        score_home := score_home
        score_overtime := score_overtime
        playbyplay_changes := playbyplay_changes
        game_data := game_data }

/-- The in-memory store's state. -/
abbrev Storage := List (String × GameLastInfo)

/-- `self._storage.get(key)` (`InmemoryStorage.get_last_info`). -/
def lookupS (s : Storage) (k : String) : Option GameLastInfo :=
  match s with
  | [] => none
  | (k', v) :: rest => if k' = k then some v else lookupS rest k

/-- Python dict assignment `self._storage[key] = value`: replaces the entry
in place when the key exists, appends otherwise. -/
def insertS (s : Storage) (k : String) (v : GameLastInfo) : Storage :=
  match s with
  | [] => [(k, v)]
  | (k', v') :: rest =>
    if k' = k then (k, v) :: rest else (k', v') :: insertS rest k v

/-- `InmemoryStorage.clean_old_records`: the source computes the threshold
from `datetime.now()` — the process's local wall clock, NOT `get_utc_now()` —
so the clock parameter here is the local-clock reading `now_local`.  Keeps
exactly the entries with `gamedatetime >= now_local - 5h`. -/
def clean_old_records (now_local : Int) (s : Storage) : Storage :=
  s.filter (fun kv => now_local - 300 ≤ kv.2.gamedatetime)

/-- Start of the current UTC calendar day:
`current_time.replace(hour=0, minute=0, second=0, microsecond=0)`. -/
def todayStart (now : Int) : Int := now - now % 1440

/-- The single-entry classification test inside the
`InmemoryStorage.get_games_by_type` loop, with the source's guard order:
`early_final`, then `live`, then `early`, then `today`.  `now` is the
`get_utc_now()` reading taken at the top of the call; `three_hours_ago` is
`now - 180` and (the misnamed) `five_hours_future` is `now + 180`.  The
`today` guard's upper bound `now.replace(hour=23, minute=59, second=59,
microsecond=999999)` is the last instant of the day, i.e. at minute
granularity `todayStart now + 1439` inclusively. -/
def classifyOne (now : Int) (game_type : GameType) (li : GameLastInfo) :
    Bool :=
  if game_type = .early_final ∧ is_game_final li.status then true
  else if game_type = .live ∧
      ((now ≤ li.gamedatetime ∧ li.gamedatetime < now + 180) ∨
        (li.status ≠ "Scheduled" ∧
          now - 180 ≤ li.gamedatetime ∧ li.gamedatetime < now)) then true
  else if game_type = .early ∧
      (now < li.gamedatetime ∧ li.gamedatetime ≤ now) then true
  else if game_type = .today ∧
      (todayStart now ≤ li.gamedatetime ∧
        li.gamedatetime ≤ todayStart now + 1439) then true
  else false

/-- `InmemoryStorage.get_games_by_type`: appends `game_short` for every
stored entry (in insertion order) passing the bucket test. -/
def get_games_by_type (now : Int) (game_type : GameType) (s : Storage) :
    List GameShort :=
  (s.filter (fun kv => classifyOne now game_type kv.2)).map
    (fun kv => kv.2.game_short)

/-- The generic-field application loop of `InmemoryStorage.update_games_list`:
`for key in generic_keys: if getattr(game_changes, key) is not None:
setattr(last_info, key, ...)`. -/
def applyGeneric (gc : GameChanges) (li : GameLastInfo) : GameLastInfo :=
  { li with
    status := gc.status.getD li.status
    gamedatetime := gc.gamedatetime.getD li.gamedatetime
    score_visitor :=
      match gc.score_visitor with
      | some v => some v
      | none => li.score_visitor
    score_home :=
      match gc.score_home with
      | some v => some v
      | none => li.score_home
    score_overtime :=
      match gc.score_overtime with
      | some v => some v
      | none => li.score_overtime }

/-- The play-by-play part of `InmemoryStorage.update_games_list`: skipped
when `playbyplay_changes` is falsy (Python: `None` or the empty list);
otherwise every `int(item["id"])` conversion runs first (any failure raises
before the ids are stored), then the id set is installed or unioned in. -/
def pbpApply (gc : GameChanges) (li : GameLastInfo) :
    Except Unit GameLastInfo :=
  match gc.playbyplay_changes with
  | some (x :: xs) => do
    let idsL ← (x :: xs).mapM itemId
    let playbyplay_ids : Finset Int := idsL.toFinset
    match li.playbyplay_ids with
    | none => .ok { li with playbyplay_ids := some playbyplay_ids }
    | some prev => .ok { li with playbyplay_ids := some (prev ∪ playbyplay_ids) }
  | _ => .ok li

/-- `GameLastInfo(...)` construction in the `last_info is None` branch of
`update_games_list`: derives `gamedatetime` from the raw payload and reads
`game_data["status"]`; either step can raise, in which case nothing is
inserted. -/
def newLastInfo (nyToUtc : Int → Int) (gc : GameChanges) :
    Except Unit GameLastInfo := do
  let gamedatetime ← get_game_datetime nyToUtc gc.game_data
  let status ← statusStr gc.game_data
  .ok { game_short := gc.game_short
        gamedatetime := gamedatetime
        status := status }

/-- One iteration of the `update_games_list` loop body.  Mutation order
matches the source: the (possibly fresh) `last_info` is stored under its key
with the generic fields applied; if the play-by-play id conversion then
raises, those generic updates remain visible (in-place mutation) and the
returned flag is `false` (exception propagating out of the loop). -/
def update_one (nyToUtc : Int → Int) (gc : GameChanges) (s : Storage) :
    Storage × Bool :=
  let key := gc.game_short.key
  match lookupS s key with
  | some li =>
    let li1 := applyGeneric gc li
    match pbpApply gc li1 with
    | .ok li2 => (insertS s key li2, true)
    | .error _ => (insertS s key li1, false)
  | none =>
    match newLastInfo nyToUtc gc with
    | .error _ => (s, false)
    | .ok li0 =>
      let li1 := applyGeneric gc li0
      match pbpApply gc li1 with
      | .ok li2 => (insertS s key li2, true)
      | .error _ => (insertS s key li1, false)

/-- `InmemoryStorage.update_games_list`: left-to-right application; the first
exception aborts the loop, keeping all mutations made so far (the Boolean
records whether the whole list was applied without raising). -/
def update_games_list (nyToUtc : Int → Int) :
    List GameChanges → Storage → Storage × Bool
  | [], s => (s, true)
  | gc :: rest, s =>
    match update_one nyToUtc gc s with
    | (s', true) => update_games_list nyToUtc rest s'
    | (s', false) => (s', false)

/-- `raw_response["success"] == "0"` (total in Python: comparing a dict to a
string is simply unequal). -/
def isStr0 (v : NValue) : Bool :=
  match v with
  | .vStr s => s == "0"
  | .vDict _ => false

/-- `GameUpdateManager.response_to_game_data`, with the source's evaluation
order: a `None` response short-circuits to `None`; then `["success"]` is read
(KeyError when absent); a `"0"` flag, a missing `"games"` key or a `"games"`
value of length `> 1` yields `None`; otherwise
`list(raw_response["games"].values())[0]` — which raises on an empty dict
(IndexError) or a string value (AttributeError). -/
def response_to_game_data (raw_response : Option NValue) :
    Except Unit (Option NValue) :=
  match raw_response with
  | none => .ok none
  | some r => do
    let s ← getKey r "success"
    if isStr0 s then .ok none
    else if ¬ hasKey r "games" then .ok none
    else do
      let g ← getKey r "games"
      if pyLen g > 1 then .ok none
      else
        match g with
        | .vDict ((_, v) :: _) => .ok (some v)
        | .vDict [] => .error ()
        | .vStr _ => .error ()

/-- `GameUpdateManager.get_game_changes`: fetch result → validated payload →
diff against the stored last info.  `resp` is the raw `fetch_game` result for
this game (the `FetchClient` is external; its output is an input here). -/
def manager_get_game_changes (nyToUtc : Int → Int) (storage : Storage)
    (game_short : GameShort) (resp : Option NValue) :
    Except Unit (Option GameChanges) := do
  match ← response_to_game_data resp with
  | none => .ok none
  | some game_data => do
    let game_last_info := lookupS storage game_short.key
    let game_changes ←
      get_game_changes nyToUtc game_short game_data game_last_info
    .ok (some game_changes)

/-- The per-cycle diff phase of `GameUpdateManager.game_details_update`:
every selected game's fetch result is diffed, then
`[change for change in changes if change is not None]` drops the games whose
fetch/validation failed.  An exception in any per-game task propagates out of
the `gather` (modelled by the `Except` error). -/
def cycle_changes (nyToUtc : Int → Int) (storage : Storage)
    (fetched : List (GameShort × Option NValue)) :
    Except Unit (List GameChanges) := do
  let changes ← fetched.mapM
    (fun p => manager_get_game_changes nyToUtc storage p.1 p.2)
  .ok (changes.filterMap id)

/-- One polling cycle of `GameUpdateManager.game_details_update` after the
fetch fan-out, as a function of the fetched responses: the surviving changes
are applied to the store (`update_games_list`) and then the very same list is
forwarded to the datastore (`upsert_live_games` / `save_final_games`).
Returns the store after the cycle and `some` of the forwarded list — `none`
when an exception aborted the cycle before the forwarding step. -/
def game_details_update (nyToUtc : Int → Int) (storage : Storage)
    (fetched : List (GameShort × Option NValue)) :
    Storage × Option (List GameChanges) :=
  match cycle_changes nyToUtc storage fetched with
  | .error _ => (storage, none)
  | .ok changes =>
    match update_games_list nyToUtc changes storage with
    | (s', true) => (s', some changes)
    | (s', false) => (s', none)

/-- A "no-op" delta in the sense of the specification: all five scalar fields
absent and no new events (`playbyplay_changes` absent or empty). -/
def isNoopDelta (c : GameChanges) : Bool :=
  c.status.isNone && c.gamedatetime.isNone && c.score_visitor.isNone &&
    c.score_home.isNone && c.score_overtime.isNone &&
    (match c.playbyplay_changes with
     | some (_ :: _) => false
     | _ => true)

/-- The live-bucket condition exactly as the specification words it:
`scheduled_time` within `[now, now+3h)`, or `status != "Scheduled"` and
`scheduled_time` within `[now-3h, now)`. -/
def liveSpec (now : Int) (li : GameLastInfo) : Prop :=
  (now ≤ li.gamedatetime ∧ li.gamedatetime < now + 180) ∨
    (li.status ≠ "Scheduled" ∧
      now - 180 ≤ li.gamedatetime ∧ li.gamedatetime < now)

instance liveSpecDecidable (now : Int) (li : GameLastInfo) :
    Decidable (liveSpec now li) := by
  unfold liveSpec; infer_instance

/-- The set of play-by-play event ids the store knows for key `k`
(`∅` when the entry or its id set is absent). -/
def storedIds (s : Storage) (k : String) : Finset Int :=
  match lookupS s k with
  | some li => li.playbyplay_ids.getD ∅
  | none => ∅

/-- A fetch result the cycle drops cleanly, per the specification's list as
it actually behaves: a `None` response; or a dict response whose success
flag is `"0"`; or one that has a success flag (of any value) and no
`"games"` key; or one that has a success flag and a `"games"` value of
length greater than one.  (Without a `"success"` key, the validation itself
raises `KeyError` instead of dropping the game.) -/
def badFetchResult (resp : Option NValue) : Prop :=
  resp = none ∨
  ∃ es, resp = some (.vDict es) ∧
    (lookupEntries es "success" = some (.vStr "0") ∨
      ((lookupEntries es "success").isSome ∧
        lookupEntries es "games" = none) ∨
      ((lookupEntries es "success").isSome ∧
        ∃ g, lookupEntries es "games" = some g ∧ 1 < pyLen g))

/-- A sample tracked game. -/
def sampleGS : GameShort := ⟨1, "NBA"⟩

/-- A sample provider payload: final NBA game, no play-by-play section. -/
def samplePayload : NValue :=
  .vDict [("status", .vStr "Final"), ("gameday", .vStr "2023-10-24"),
          ("starttime", .vStr "23:30"),
          ("score", .vDict [("visitor", .vStr "107"), ("home", .vStr "119"),
            ("overtime", .vStr "N")])]

/-- The scheduled time `samplePayload` parses to (under the identity tz
conversion). -/
def sampleMinutes : Int := toMinutes 2023 10 24 23 30

/-- A stored state that already equals everything `samplePayload` carries. -/
def sampleLast : GameLastInfo :=
  { game_short := sampleGS, gamedatetime := sampleMinutes, status := "Final",
    score_visitor := some 107, score_home := some 119,
    score_overtime := some "N" }

/-- The all-fields-absent delta diffing `samplePayload` against
`sampleLast` produces. -/
def sampleNoop : GameChanges :=
  { game_short := sampleGS, status := none, gamedatetime := none,
    game_data := samplePayload }

/-- The fresh-game delta diffing `samplePayload` against no previous state
produces. -/
def sampleFull : GameChanges :=
  { game_short := sampleGS, status := some "Final",
    gamedatetime := some sampleMinutes, score_visitor := some 107,
    score_home := some 119, score_overtime := some "N",
    playbyplay_changes := none, game_data := samplePayload }

/-- A well-formed single-game provider response wrapping `samplePayload`. -/
def sampleResp : Option NValue :=
  some (.vDict [("success", .vStr "1"),
    ("games", .vDict [("1", samplePayload)])])

/-- A stored state that already knows play-by-play event id 7. -/
def sampleLastPbp : GameLastInfo :=
  { game_short := sampleGS, gamedatetime := sampleMinutes, status := "Final",
    playbyplay_ids := some {7} }

/-- A payload whose play-by-play section holds events 7 and 8. -/
def pbpPayload : NValue :=
  .vDict [("stats", .vDict [("playbyplay",
    .vDict [("1", .vDict [("id", .vStr "7")]),
            ("2", .vDict [("id", .vStr "8")])])])]

/-- A delta carrying one new play-by-play event (id 8). -/
def pbpDelta : GameChanges :=
  { game_short := sampleGS, status := none, gamedatetime := none,
    playbyplay_changes := some [.vDict [("id", .vStr "8")]],
    game_data := samplePayload }

/-- A delta carrying a new status and visitor score, everything else
absent. -/
def sampleDelta : GameChanges :=
  { game_short := sampleGS, status := some "InProgress",
    gamedatetime := none, score_visitor := some 50,
    game_data := samplePayload }

/-- Value of a two-digit field, as `strptime` computes it. -/
def digits2 (a b : Char) : Nat := (a.toNat - 48) * 10 + (b.toNat - 48)

/-- Value of the four-digit year field, as `strptime` computes it. -/
def digits4 (a b c d : Char) : Nat :=
  (((a.toNat - 48) * 10 + (b.toNat - 48)) * 10 + (c.toNat - 48)) * 10 +
    (d.toNat - 48)

theorem classifyOne_live_iff (now : Int) (li : GameLastInfo) :
    classifyOne now .live li = true ↔ liveSpec now li := by
  simp only [classifyOne, liveSpec]
  constructor
  · intro h
    simp at h
    rcases h with ⟨h1, h2⟩ | ⟨h1, h2, h3⟩
    · exact Or.inl ⟨h1, h2⟩
    · exact Or.inr ⟨h1, by omega, h3⟩
  · intro h
    simp
    rcases h with ⟨h1, h2⟩ | ⟨h1, h2, h3⟩
    · exact Or.inl ⟨h1, h2⟩
    · exact Or.inr ⟨h1, by omega, h3⟩

theorem classifyOne_live_eq (now : Int) (li : GameLastInfo) :
    classifyOne now .live li = decide (liveSpec now li) := by
  by_cases h : liveSpec now li
  · rw [(classifyOne_live_iff now li).mpr h]
    simp [h]
  · have hb : classifyOne now .live li = false :=
      Bool.eq_false_iff.mpr (fun hc => h ((classifyOne_live_iff now li).mp hc))
    rw [hb]
    simp [h]

theorem liveSpec_mk (now t : Int) (gs : GameShort) (st : String)
    (sv sh : Option Int) (so : Option String) (pb : Option (Finset Int)) :
    liveSpec now ⟨gs, t, st, sv, sh, so, pb⟩ ↔
      ((now ≤ t ∧ t < now + 180) ∨
        (st ≠ "Scheduled" ∧ now - 180 ≤ t ∧ t < now)) := Iff.rfl

/-- C5: for every stored game and every time `now`, live-bucket membership is
exactly the specification's condition; and the three boundary cases behave as
stated: `now + 2h59m` with status `"Scheduled"` is live, `now - 2h59m` with
status `"InProgress"` is live, `now - 2h59m` with status `"Scheduled"` is
not. -/
theorem live_bucket_classification :
    (∀ (now : Int) (s : Storage),
      get_games_by_type now .live s =
        (s.filter (fun kv => decide (liveSpec now kv.2))).map
          (fun kv => kv.2.game_short)) ∧
    (∀ (now : Int) (gs : GameShort),
      get_games_by_type now .live
        [(gs.key, { game_short := gs, gamedatetime := now + 179,
                    status := "Scheduled" })] = [gs]) ∧
    (∀ (now : Int) (gs : GameShort),
      get_games_by_type now .live
        [(gs.key, { game_short := gs, gamedatetime := now - 179,
                    status := "InProgress" })] = [gs]) ∧
    (∀ (now : Int) (gs : GameShort),
      get_games_by_type now .live
        [(gs.key, { game_short := gs, gamedatetime := now - 179,
                    status := "Scheduled" })] = []) := by
  refine ⟨fun now s => ?_, fun now gs => ?_, fun now gs => ?_, fun now gs => ?_⟩
  · unfold get_games_by_type
    congr 1
    apply List.filter_congr
    intro kv _
    exact classifyOne_live_eq now kv.2
  · have hc : classifyOne now .live
        { game_short := gs, gamedatetime := now + 179,
          status := "Scheduled" } = true := by
      rw [classifyOne_live_iff, liveSpec_mk]
      exact Or.inl ⟨by omega, by omega⟩
    simp [get_games_by_type, hc]
  · have hc : classifyOne now .live
        { game_short := gs, gamedatetime := now - 179,
          status := "InProgress" } = true := by
      rw [classifyOne_live_iff, liveSpec_mk]
      exact Or.inr ⟨by simp, by omega, by omega⟩
    simp [get_games_by_type, hc]
  · have hc : classifyOne now .live
        { game_short := gs, gamedatetime := now - 179,
          status := "Scheduled" } = false := by
      apply Bool.eq_false_iff.mpr
      rw [ne_eq, classifyOne_live_iff, liveSpec_mk]
      rintro (⟨h1, h2⟩ | ⟨h1, h2, h3⟩)
      · omega
      · exact h1 rfl
    simp [get_games_by_type, hc]

/-- C6: the `early` bucket's condition `now < scheduled_time <= now` is
unsatisfiable, so classification always returns the empty list. -/
theorem early_bucket_always_empty (now : Int) (s : Storage) :
    get_games_by_type now .early s = [] := by
  simp only [get_games_by_type, List.map_eq_nil_iff, List.filter_eq_nil_iff]
  intro kv _
  simp [classifyOne]

/-- C7: score extraction.  A payload with score object
`{"visitor": "107", "home": "119", "overtime": "N"}` yields
`score_visitor = 107`, `score_home = 119`, `score_overtime = "N"`; replacing
the score field by the provider's `{}` placeholder yields all three absent —
`.ok none`, i.e. neither a zero/empty default nor a raised error. -/
theorem score_extraction_cases :
    (get_changed_score_visitor none
      (.vDict [("score", .vDict [("visitor", .vStr "107"),
        ("home", .vStr "119"), ("overtime", .vStr "N")])]) = .ok (some 107)) ∧
    (get_changed_score_home none
      (.vDict [("score", .vDict [("visitor", .vStr "107"),
        ("home", .vStr "119"), ("overtime", .vStr "N")])]) = .ok (some 119)) ∧
    (get_changed_score_overtime none
      (.vDict [("score", .vDict [("visitor", .vStr "107"),
        ("home", .vStr "119"), ("overtime", .vStr "N")])]) = some "N") ∧
    (get_changed_score_visitor none (.vDict [("score", .vDict [])])
      = .ok none) ∧
    (get_changed_score_home none (.vDict [("score", .vDict [])])
      = .ok none) ∧
    (get_changed_score_overtime none (.vDict [("score", .vDict [])])
      = none) :=
  ⟨rfl, rfl, rfl, rfl, rfl, rfl⟩

/-- C4 (evidence of the code bug): `clean_old_records` takes its threshold
from `datetime.now()` — the process-local wall clock — while every stored
`gamedatetime` is UTC (`get_game_datetime` converts to UTC; `get_utc_now`
is used everywhere else in the module).  With the UTC clock at `0` and the
local clock two hours ahead (`now_local = 120`), the entry scheduled at
`utcNow - 4h = -240` — newer than `utcNow - 5h`, so the claim says it must
be retained — is evicted.  The remaining conjuncts show the claimed
behaviour does hold whenever the local clock coincides with UTC: at
`now = 0` the `-4h` entry is retained and the `-6h` entry is removed. -/
theorem clean_old_records_reads_local_clock :
    ((0 : Int) - 300 ≤ -240 ∧
     clean_old_records 120
       [("NBA_1", { game_short := ⟨1, "NBA"⟩, gamedatetime := -240,
                    status := "Scheduled" })] = []) ∧
    (clean_old_records 0
       [("NBA_1", { game_short := ⟨1, "NBA"⟩, gamedatetime := -240,
                    status := "Scheduled" })] =
       [("NBA_1", { game_short := ⟨1, "NBA"⟩, gamedatetime := -240,
                    status := "Scheduled" })]) ∧
    (clean_old_records 0
       [("NBA_1", { game_short := ⟨1, "NBA"⟩, gamedatetime := -360,
                    status := "Scheduled" })] = []) := by
  refine ⟨⟨by omega, ?_⟩, ?_, ?_⟩ <;> rfl

/-- `Except` bind on a success, for unfolding the embedded `do` chains. -/
@[simp] theorem okBind {α β : Type} (a : α) (f : α → Except Unit β) :
    (Except.ok a >>= f) = f a := rfl

/-- `Except` bind on a failure. -/
@[simp] theorem errBind {α β : Type} (e : Unit) (f : α → Except Unit β) :
    ((Except.error e : Except Unit α) >>= f) = .error e := rfl

/-- C2: absence-aware diffing.  First part: with no previous state
(`last_info = None`) every successful diff carries every comparable field as
the freshly extracted value (`status`/`gamedatetime` as `some` of the fresh
value; each score exactly as extracted, absent scores staying absent).
Second part: when the previous state's stored values all equal the freshly
extracted ones, the diff leaves all five fields absent. -/
theorem diff_absence_aware :
    (∀ (nyToUtc : Int → Int) (gs : GameShort) (d : NValue) (ch : GameChanges),
      get_game_changes nyToUtc gs d none = .ok ch →
      ∃ s t, statusStr d = .ok s ∧ get_game_datetime nyToUtc d = .ok t ∧
        ch.status = some s ∧ ch.gamedatetime = some t ∧
        get_natstat_value_int d ["score", "visitor"] = .ok ch.score_visitor ∧
        get_natstat_value_int d ["score", "home"] = .ok ch.score_home ∧
        ch.score_overtime = get_natstat_value_str d ["score", "overtime"]) ∧
    (∀ (nyToUtc : Int → Int) (gs : GameShort) (d : NValue)
        (li : GameLastInfo) (ch : GameChanges),
      statusStr d = .ok li.status →
      get_game_datetime nyToUtc d = .ok li.gamedatetime →
      get_natstat_value_int d ["score", "visitor"] = .ok li.score_visitor →
      get_natstat_value_int d ["score", "home"] = .ok li.score_home →
      get_natstat_value_str d ["score", "overtime"] = li.score_overtime →
      get_game_changes nyToUtc gs d (some li) = .ok ch →
      ch.status = none ∧ ch.gamedatetime = none ∧ ch.score_visitor = none ∧
        ch.score_home = none ∧ ch.score_overtime = none) := by
  constructor
  · intro nyToUtc gs d ch h
    simp only [get_game_changes, get_changed_status, get_changed_gamedatetime,
      get_changed_score_visitor, get_changed_score_home,
      get_changed_score_overtime] at h
    cases hs : statusStr d with
    | error e => rw [hs] at h; simp at h
    | ok s =>
    rw [hs] at h
    simp only [okBind] at h
    cases ht : get_game_datetime nyToUtc d with
    | error e => rw [ht] at h; simp at h
    | ok t =>
    rw [ht] at h
    simp only [okBind] at h
    cases hv : get_natstat_value_int d ["score", "visitor"] with
    | error e => rw [hv] at h; simp at h
    | ok v =>
    rw [hv] at h
    simp only [okBind] at h
    cases hh : get_natstat_value_int d ["score", "home"] with
    | error e => rw [hh] at h; simp at h
    | ok hm =>
    rw [hh] at h
    simp only [okBind] at h
    cases hp : get_play_by_play_changes none d with
    | error e => rw [hp] at h; simp at h
    | ok pb =>
    rw [hp] at h
    simp only [okBind] at h
    cases h
    exact ⟨s, t, rfl, rfl, rfl, rfl, rfl, rfl, rfl⟩
  · intro nyToUtc gs d li ch h1 h2 h3 h4 h5 h
    simp only [get_game_changes, get_changed_status, get_changed_gamedatetime,
      get_changed_score_visitor, get_changed_score_home,
      get_changed_score_overtime, h1, h2, h3, h4, h5, okBind] at h
    simp at h
    cases hp : get_play_by_play_changes (some li) d with
    | error e => rw [hp] at h; simp at h
    | ok pb =>
    rw [hp] at h
    simp only [okBind] at h
    cases h
    exact ⟨rfl, rfl, rfl, rfl, rfl⟩

theorem lookupS_insertS_self (s : Storage) (k : String) (v : GameLastInfo) :
    lookupS (insertS s k v) k = some v := by
  induction s with
  | nil => simp [insertS, lookupS]
  | cons kv rest ih =>
    obtain ⟨k1, v1⟩ := kv
    by_cases h : k1 = k
    · simp [insertS, h, lookupS]
    · simp [insertS, h, lookupS, ih]

theorem lookupS_insertS_ne (s : Storage) (k : String) (v : GameLastInfo)
    (k' : String) (h : k' ≠ k) :
    lookupS (insertS s k v) k' = lookupS s k' := by
  have h2 : ¬ (k = k') := fun he => h he.symm
  induction s with
  | nil => simp [insertS, lookupS, h2]
  | cons kv rest ih =>
    obtain ⟨k1, v1⟩ := kv
    by_cases hk : k1 = k
    · subst hk
      simp [insertS, lookupS, h2]
    · by_cases hk' : k1 = k'
      · simp [insertS, hk, lookupS, hk', h]
      · simp [insertS, hk, lookupS, hk', ih]

theorem applyGeneric_game_short (gc : GameChanges) (li : GameLastInfo) :
    (applyGeneric gc li).game_short = li.game_short := rfl

theorem applyGeneric_playbyplay_ids (gc : GameChanges) (li : GameLastInfo) :
    (applyGeneric gc li).playbyplay_ids = li.playbyplay_ids := rfl

/-- `pbpApply` touches only `playbyplay_ids`. -/
theorem pbpApply_frame (gc : GameChanges) (li li' : GameLastInfo)
    (h : pbpApply gc li = .ok li') :
    li'.game_short = li.game_short ∧ li'.status = li.status ∧
      li'.gamedatetime = li.gamedatetime ∧
      li'.score_visitor = li.score_visitor ∧
      li'.score_home = li.score_home ∧
      li'.score_overtime = li.score_overtime := by
  unfold pbpApply at h
  cases hc : gc.playbyplay_changes with
  | none => simp only [hc] at h; cases h; exact ⟨rfl, rfl, rfl, rfl, rfl, rfl⟩
  | some lst =>
    cases lst with
    | nil => simp only [hc] at h; cases h; exact ⟨rfl, rfl, rfl, rfl, rfl, rfl⟩
    | cons x xs =>
      simp only [hc] at h
      cases hm : (x :: xs).mapM itemId with
      | error e => simp only [hm, errBind] at h; exact Except.noConfusion h
      | ok idsL =>
        simp only [hm, okBind] at h
        cases hp : li.playbyplay_ids with
        | none =>
          simp only [hp] at h
          cases h; exact ⟨rfl, rfl, rfl, rfl, rfl, rfl⟩
        | some prev =>
          simp only [hp] at h
          cases h; exact ⟨rfl, rfl, rfl, rfl, rfl, rfl⟩

/-- A single-delta `update_games_list` call ends in the state `update_one`
produces, whether or not the play-by-play step raised. -/
theorem update_games_list_single (nyToUtc : Int → Int) (gc : GameChanges)
    (s : Storage) :
    (update_games_list nyToUtc [gc] s).1 = (update_one nyToUtc gc s).1 := by
  cases h : update_one nyToUtc gc s with
  | mk s' b => cases b <;> simp [update_games_list, h]

/-- C9: applying a delta to an existing `GameState` overwrites each of
status / gamedatetime / score_visitor / score_home / score_overtime exactly
when the delta carries a present value for it, keeps every field whose delta
value is absent, keeps the entry's identity, and leaves every other entry of
the store untouched. -/
theorem apply_delta_frame (nyToUtc : Int → Int) (gc : GameChanges)
    (s : Storage) (li : GameLastInfo)
    (hli : lookupS s gc.game_short.key = some li) :
    ∃ li',
      lookupS (update_games_list nyToUtc [gc] s).1 gc.game_short.key =
        some li' ∧
      li'.game_short = li.game_short ∧
      (∀ v, gc.status = some v → li'.status = v) ∧
      (gc.status = none → li'.status = li.status) ∧
      (∀ v, gc.gamedatetime = some v → li'.gamedatetime = v) ∧
      (gc.gamedatetime = none → li'.gamedatetime = li.gamedatetime) ∧
      (∀ v, gc.score_visitor = some v → li'.score_visitor = some v) ∧
      (gc.score_visitor = none → li'.score_visitor = li.score_visitor) ∧
      (∀ v, gc.score_home = some v → li'.score_home = some v) ∧
      (gc.score_home = none → li'.score_home = li.score_home) ∧
      (∀ v, gc.score_overtime = some v → li'.score_overtime = some v) ∧
      (gc.score_overtime = none → li'.score_overtime = li.score_overtime) ∧
      (∀ k, k ≠ gc.game_short.key →
        lookupS (update_games_list nyToUtc [gc] s).1 k = lookupS s k) := by
  rw [update_games_list_single]
  cases hpb : pbpApply gc (applyGeneric gc li) with
  | ok li2 =>
    have hres : (update_one nyToUtc gc s).1 =
        insertS s gc.game_short.key li2 := by
      simp only [update_one, hli, hpb]
    rw [hres]
    obtain ⟨hg, hst, hdt, hsv, hsh, hso⟩ :=
      pbpApply_frame gc (applyGeneric gc li) li2 hpb
    refine ⟨li2, lookupS_insertS_self s _ li2, ?_, ?_, ?_, ?_, ?_, ?_, ?_,
      ?_, ?_, ?_, ?_, fun k hk => lookupS_insertS_ne s _ li2 k hk⟩
    · rw [hg]; rfl
    · intro v hv; rw [hst]; simp [applyGeneric, hv]
    · intro hv; rw [hst]; simp [applyGeneric, hv]
    · intro v hv; rw [hdt]; simp [applyGeneric, hv]
    · intro hv; rw [hdt]; simp [applyGeneric, hv]
    · intro v hv; rw [hsv]; simp [applyGeneric, hv]
    · intro hv; rw [hsv]; simp [applyGeneric, hv]
    · intro v hv; rw [hsh]; simp [applyGeneric, hv]
    · intro hv; rw [hsh]; simp [applyGeneric, hv]
    · intro v hv; rw [hso]; simp [applyGeneric, hv]
    · intro hv; rw [hso]; simp [applyGeneric, hv]
  | error e =>
    have hres : (update_one nyToUtc gc s).1 =
        insertS s gc.game_short.key (applyGeneric gc li) := by
      simp only [update_one, hli, hpb]
    rw [hres]
    refine ⟨applyGeneric gc li, lookupS_insertS_self s _ _, rfl, ?_, ?_, ?_,
      ?_, ?_, ?_, ?_, ?_, ?_, ?_,
      fun k hk => lookupS_insertS_ne s _ _ k hk⟩
    · intro v hv; simp [applyGeneric, hv]
    · intro hv; simp [applyGeneric, hv]
    · intro v hv; simp [applyGeneric, hv]
    · intro hv; simp [applyGeneric, hv]
    · intro v hv; simp [applyGeneric, hv]
    · intro hv; simp [applyGeneric, hv]
    · intro v hv; simp [applyGeneric, hv]
    · intro hv; simp [applyGeneric, hv]
    · intro v hv; simp [applyGeneric, hv]
    · intro hv; simp [applyGeneric, hv]

/-- A successful `pbpApply` never loses a known id. -/
theorem pbpApply_grows (gc : GameChanges) (li li' : GameLastInfo)
    (h : pbpApply gc li = .ok li') :
    li.playbyplay_ids.getD ∅ ⊆ li'.playbyplay_ids.getD ∅ := by
  unfold pbpApply at h
  cases hc : gc.playbyplay_changes with
  | none => simp only [hc] at h; cases h; exact Finset.Subset.refl _
  | some lst =>
    cases lst with
    | nil => simp only [hc] at h; cases h; exact Finset.Subset.refl _
    | cons x xs =>
      simp only [hc] at h
      cases hm : (x :: xs).mapM itemId with
      | error e => simp only [hm, errBind] at h; exact Except.noConfusion h
      | ok idsL =>
        simp only [hm, okBind] at h
        cases hp : li.playbyplay_ids with
        | none =>
          simp only [hp] at h
          cases h
          simp [Option.getD]
        | some prev =>
          simp only [hp] at h
          cases h
          simp [Option.getD]

/-- One loop iteration of `update_games_list` never loses a known id,
under any key. -/
theorem storedIds_update_one (nyToUtc : Int → Int) (gc : GameChanges)
    (s : Storage) (k : String) :
    storedIds s k ⊆ storedIds (update_one nyToUtc gc s).1 k := by
  by_cases hk : k = gc.game_short.key
  · subst hk
    cases hli : lookupS s gc.game_short.key with
    | none =>
      have h0 : storedIds s gc.game_short.key = ∅ := by
        simp [storedIds, hli]
      rw [h0]
      exact Finset.empty_subset _
    | some li =>
      have h0 : storedIds s gc.game_short.key = li.playbyplay_ids.getD ∅ := by
        simp [storedIds, hli]
      rw [h0]
      cases hpb : pbpApply gc (applyGeneric gc li) with
      | ok li2 =>
        have hres : (update_one nyToUtc gc s).1 =
            insertS s gc.game_short.key li2 := by
          simp only [update_one, hli, hpb]
        rw [hres]
        have h1 : storedIds (insertS s gc.game_short.key li2)
            gc.game_short.key = li2.playbyplay_ids.getD ∅ := by
          simp [storedIds, lookupS_insertS_self]
        rw [h1]
        have := pbpApply_grows gc (applyGeneric gc li) li2 hpb
        rw [applyGeneric_playbyplay_ids] at this
        exact this
      | error e =>
        have hres : (update_one nyToUtc gc s).1 =
            insertS s gc.game_short.key (applyGeneric gc li) := by
          simp only [update_one, hli, hpb]
        rw [hres]
        have h1 : storedIds
            (insertS s gc.game_short.key (applyGeneric gc li))
            gc.game_short.key =
            (applyGeneric gc li).playbyplay_ids.getD ∅ := by
          simp [storedIds, lookupS_insertS_self]
        rw [h1, applyGeneric_playbyplay_ids]
  · have hlook : ∀ v, lookupS (insertS s gc.game_short.key v) k =
        lookupS s k := fun v => lookupS_insertS_ne s _ v k hk
    cases hli : lookupS s gc.game_short.key with
    | none =>
      cases hnew : newLastInfo nyToUtc gc with
      | error e =>
        have hres : (update_one nyToUtc gc s).1 = s := by
          simp only [update_one, hli, hnew]
        rw [hres]
      | ok li0 =>
        cases hpb : pbpApply gc (applyGeneric gc li0) with
        | ok li2 =>
          have hres : (update_one nyToUtc gc s).1 =
              insertS s gc.game_short.key li2 := by
            simp only [update_one, hli, hnew, hpb]
          rw [hres]
          simp [storedIds, hlook]
        | error e =>
          have hres : (update_one nyToUtc gc s).1 =
              insertS s gc.game_short.key (applyGeneric gc li0) := by
            simp only [update_one, hli, hnew, hpb]
          rw [hres]
          simp [storedIds, hlook]
    | some li =>
      cases hpb : pbpApply gc (applyGeneric gc li) with
      | ok li2 =>
        have hres : (update_one nyToUtc gc s).1 =
            insertS s gc.game_short.key li2 := by
          simp only [update_one, hli, hpb]
        rw [hres]
        simp [storedIds, hlook]
      | error e =>
        have hres : (update_one nyToUtc gc s).1 =
            insertS s gc.game_short.key (applyGeneric gc li) := by
          simp only [update_one, hli, hpb]
        rw [hres]
        simp [storedIds, hlook]

/-- A whole `update_games_list` call never loses a known id, whether or not
it ran to completion. -/
theorem storedIds_update_list (nyToUtc : Int → Int)
    (changes : List GameChanges) (s : Storage) (k : String) :
    storedIds s k ⊆ storedIds (update_games_list nyToUtc changes s).1 k := by
  induction changes generalizing s with
  | nil => exact Finset.Subset.refl _
  | cons gc rest ih =>
    cases hone : update_one nyToUtc gc s with
    | mk s' b =>
      have hstep : storedIds s k ⊆ storedIds s' k := by
        have := storedIds_update_one nyToUtc gc s k
        rw [hone] at this
        exact this
      cases b with
      | true =>
        have hres : update_games_list nyToUtc (gc :: rest) s =
            update_games_list nyToUtc rest s' := by
          simp [update_games_list, hone]
        rw [hres]
        exact hstep.trans (ih s')
      | false =>
        have hres : update_games_list nyToUtc (gc :: rest) s = (s', false) := by
          simp [update_games_list, hone]
        rw [hres]
        exact hstep

/-- The diff never reports an already-known event id as new. -/
theorem pbp_no_known_id (li : GameLastInfo) (d : NValue) (ids : Finset Int)
    (i : Int) (lst : List NValue) (hids : li.playbyplay_ids = some ids)
    (hin : i ∈ ids)
    (h : get_play_by_play_changes (some li) d = .ok (some lst)) :
    ∀ item ∈ lst, ¬ (itemId item = .ok i) := by
  unfold get_play_by_play_changes at h
  cases hsp : searchPath ["stats", "playbyplay"] d with
  | none => simp only [hsp] at h; simp at h
  | some v =>
    cases v with
    | vStr s => simp only [hsp] at h; exact Except.noConfusion h
    | vDict es =>
      simp only [hsp] at h
      cases hm : (es.map (fun kv => kv.2)).mapM itemId with
      | error e => simp only [hm, errBind] at h; exact Except.noConfusion h
      | ok idsL =>
        simp only [hm, okBind, hids] at h
        have hlst : lst =
            (es.map (fun kv => kv.2)).filter
              (idMem (idsL.toFinset \ ids)) := by
          cases h; rfl
        subst hlst
        intro item hitem hid
        have hmem := List.of_mem_filter hitem
        rw [idMem, hid] at hmem
        simp at hmem
        exact hmem.2 hin

/-- C3: event monotonicity.  First part: across any `update_games_list`
call, the set of known play-by-play ids for every key only grows (set
union, never removal).  Second part: the diff never lists an event whose id
is already among the previous state's known ids. -/
theorem event_monotonicity :
    (∀ (nyToUtc : Int → Int) (changes : List GameChanges) (s : Storage)
        (k : String) (i : Int),
      i ∈ storedIds s k →
      i ∈ storedIds (update_games_list nyToUtc changes s).1 k) ∧
    (∀ (li : GameLastInfo) (d : NValue) (ids : Finset Int) (i : Int)
        (lst : List NValue),
      li.playbyplay_ids = some ids → i ∈ ids →
      get_play_by_play_changes (some li) d = .ok (some lst) →
      ∀ item ∈ lst, ¬ (itemId item = .ok i)) :=
  ⟨fun nyToUtc changes s k _ hi =>
    storedIds_update_list nyToUtc changes s k hi,
   pbp_no_known_id⟩

/-- `pure` on `Except`, for unfolding the embedded `do` chains. -/
@[simp] theorem pureExcept {α : Type} (a : α) :
    (pure a : Except Unit α) = .ok a := rfl

theorem badFetch_response_none (resp : Option NValue)
    (h : badFetchResult resp) : response_to_game_data resp = .ok none := by
  rcases h with rfl | ⟨es, rfl, hcase⟩
  · rfl
  · rcases hcase with h0 | ⟨hs, hg⟩ | ⟨hs, g, hg, hlen⟩
    · simp [response_to_game_data, getKey, h0, isStr0]
    · obtain ⟨v, hv⟩ := Option.isSome_iff_exists.mp hs
      cases hiv : isStr0 v with
      | true => simp [response_to_game_data, getKey, hv, hiv]
      | false => simp [response_to_game_data, getKey, hv, hiv, hasKey, hg]
    · obtain ⟨v, hv⟩ := Option.isSome_iff_exists.mp hs
      cases hiv : isStr0 v with
      | true => simp [response_to_game_data, getKey, hv, hiv]
      | false =>
        simp [response_to_game_data, getKey, hv, hiv, hasKey, hg, hlen]

/-- C8 (amended): a `None` response, a `"0"` success flag, a response with a
success flag but no `"games"` key, or one with a success flag and more than
one game, produces no delta and no exception; and dropping such a fetch
result from a cycle leaves the cycle's surviving change list exactly as if
the game had not been fetched at all. -/
theorem failed_fetch_dropped (resp : Option NValue)
    (h : badFetchResult resp) :
    response_to_game_data resp = .ok none ∧
    (∀ (nyToUtc : Int → Int) (storage : Storage) (gs : GameShort),
      manager_get_game_changes nyToUtc storage gs resp = .ok none) ∧
    (∀ (nyToUtc : Int → Int) (storage : Storage) (gs : GameShort)
        (pre post : List (GameShort × Option NValue)),
      cycle_changes nyToUtc storage (pre ++ (gs, resp) :: post) =
        cycle_changes nyToUtc storage (pre ++ post)) := by
  have hresp := badFetch_response_none resp h
  have hmgr : ∀ (nyToUtc : Int → Int) (storage : Storage) (gs : GameShort),
      manager_get_game_changes nyToUtc storage gs resp = .ok none := by
    intro nyToUtc storage gs
    simp [manager_get_game_changes, hresp]
  refine ⟨hresp, hmgr, ?_⟩
  intro nyToUtc storage gs pre post
  unfold cycle_changes
  rw [List.mapM_append, List.mapM_append, List.mapM_cons]
  cases ha : pre.mapM
      (fun p => manager_get_game_changes nyToUtc storage p.1 p.2) with
  | error e => simp [ha]
  | ok a =>
    cases hb : post.mapM
        (fun p => manager_get_game_changes nyToUtc storage p.1 p.2) with
    | error e => simp [ha, hb, hmgr]
    | ok b => simp [ha, hb, hmgr, List.filterMap_append]

/-- C8 (counterexample to the claim as stated): a response that merely lacks
the `"games"` key — here the empty dict, which also lacks the success flag —
is claimed to be dropped without raising, but the validation reads
`raw_response["success"]` first and raises `KeyError`, so the per-game task
errors instead of returning no delta. -/
theorem missing_success_key_raises :
    hasKey (.vDict []) "games" = false ∧
    manager_get_game_changes id [] ⟨1, "NBA"⟩ (some (.vDict [])) =
      .error () :=
  ⟨rfl, rfl⟩

/-- Witness for C2 at a concrete payload: applying both parts of
`diff_absence_aware` to `samplePayload`, once with no previous state and
once against `sampleLast`. -/
theorem diff_absence_aware_witness :
    (∃ s t, statusStr samplePayload = .ok s ∧
      get_game_datetime id samplePayload = .ok t ∧
      sampleFull.status = some s ∧ sampleFull.gamedatetime = some t ∧
      get_natstat_value_int samplePayload ["score", "visitor"] =
        .ok sampleFull.score_visitor ∧
      get_natstat_value_int samplePayload ["score", "home"] =
        .ok sampleFull.score_home ∧
      sampleFull.score_overtime =
        get_natstat_value_str samplePayload ["score", "overtime"]) ∧
    (sampleNoop.status = none ∧ sampleNoop.gamedatetime = none ∧
      sampleNoop.score_visitor = none ∧ sampleNoop.score_home = none ∧
      sampleNoop.score_overtime = none) :=
  ⟨diff_absence_aware.1 id sampleGS samplePayload sampleFull rfl,
   diff_absence_aware.2 id sampleGS samplePayload sampleLast sampleNoop
     rfl rfl rfl rfl rfl rfl⟩

/-- C1 (counterexample to the claim as stated): in a cycle where the fresh
payload matches the stored state exactly, the diff produces a delta with all
five fields absent and no new events — a "no-op" delta — yet the cycle does
not filter it out: it is handed to `update_games_list` and forwarded to the
datastore (the only filter is `change is not None`, which drops failed
fetches, not no-op deltas). -/
theorem noop_delta_not_filtered :
    isNoopDelta sampleNoop = true ∧
    game_details_update id [(sampleGS.key, sampleLast)]
        [(sampleGS, sampleResp)] =
      ([(sampleGS.key, sampleLast)], some [sampleNoop]) :=
  ⟨rfl, rfl⟩

/-- Success-valued `mapM` over `Except` maps members to members. -/
theorem mapM_ok_mem {α β : Type} (f : α → Except Unit β) (l : List α)
    (res : List β) (h : l.mapM f = .ok res) :
    ∀ b, b ∈ res ↔ ∃ a ∈ l, f a = .ok b := by
  induction l generalizing res with
  | nil =>
    rw [List.mapM_nil] at h
    cases h
    simp
  | cons x xs ih =>
    rw [List.mapM_cons] at h
    cases hx : f x with
    | error e => rw [hx] at h; exact Except.noConfusion h
    | ok c =>
      rw [hx] at h
      simp only [okBind] at h
      cases hxs : xs.mapM f with
      | error e => rw [hxs] at h; exact Except.noConfusion h
      | ok rest =>
        rw [hxs] at h
        simp only [okBind, pureExcept] at h
        cases h
        intro b
        constructor
        · intro hb
          rcases List.mem_cons.mp hb with rfl | hb
          · exact ⟨x, List.mem_cons_self x xs, hx⟩
          · obtain ⟨a, ha, hfa⟩ := (ih rest hxs b).mp hb
            exact ⟨a, List.mem_cons_of_mem x ha, hfa⟩
        · rintro ⟨a, ha, hfa⟩
          rcases List.mem_cons.mp ha with rfl | ha
          · rw [hx] at hfa
            cases hfa
            exact List.mem_cons_self _ _
          · exact List.mem_cons_of_mem _ ((ih rest hxs b).mpr ⟨a, ha, hfa⟩)

/-- C1 (amended): between the diff and the apply/persist phases the cycle
filters out exactly the absent per-game results (failed fetches); every
delta object the diff returns — no-op or not — appears in the list that is
both applied to the in-memory store and forwarded to the datastore. -/
theorem only_absent_results_filtered (nyToUtc : Int → Int)
    (storage : Storage) (fetched : List (GameShort × Option NValue))
    (s' : Storage) (fwd : List GameChanges)
    (h : game_details_update nyToUtc storage fetched = (s', some fwd))
    (c : GameChanges) :
    c ∈ fwd ↔ ∃ gs resp, (gs, resp) ∈ fetched ∧
      manager_get_game_changes nyToUtc storage gs resp = .ok (some c) := by
  have hcy : cycle_changes nyToUtc storage fetched = .ok fwd := by
    unfold game_details_update at h
    cases hc : cycle_changes nyToUtc storage fetched with
    | error e => simp only [hc] at h; simp at h
    | ok cs =>
      simp only [hc] at h
      cases hu : update_games_list nyToUtc cs storage with
      | mk s2 b =>
        cases b with
        | true => simp only [hu] at h; cases h; rfl
        | false => simp only [hu] at h; simp at h
  unfold cycle_changes at hcy
  cases hm : fetched.mapM
      (fun p => manager_get_game_changes nyToUtc storage p.1 p.2) with
  | error e => rw [hm] at hcy; exact Except.noConfusion hcy
  | ok opts =>
    rw [hm] at hcy
    simp only [okBind] at hcy
    cases hcy
    constructor
    · intro hc
      obtain ⟨o, ho, hoc⟩ := List.mem_filterMap.mp hc
      have := (mapM_ok_mem _ fetched opts hm o).mp ho
      obtain ⟨p, hp, hfp⟩ := this
      cases hoc
      exact ⟨p.1, p.2, by simpa using hp, hfp⟩
    · rintro ⟨gs, resp, hin, hman⟩
      apply List.mem_filterMap.mpr
      refine ⟨some c, ?_, rfl⟩
      exact (mapM_ok_mem _ fetched opts hm (some c)).mpr ⟨(gs, resp), hin, hman⟩

/-- Witness for the amended C1 at the concrete no-op cycle: the no-op delta
is in the forwarded list, and the equivalence identifies its origin. -/
theorem only_absent_results_filtered_witness :
    sampleNoop ∈ [sampleNoop] ↔ ∃ gs resp, (gs, resp) ∈ [(sampleGS, sampleResp)] ∧
      manager_get_game_changes id [(sampleGS.key, sampleLast)] gs resp =
        .ok (some sampleNoop) :=
  only_absent_results_filtered id [(sampleGS.key, sampleLast)]
    [(sampleGS, sampleResp)] [(sampleGS.key, sampleLast)] [sampleNoop]
    rfl sampleNoop

/-- Witness for C3: the already-known id 7 survives an update that unions in
id 8, and the diff of `pbpPayload` against a state knowing id 7 contains no
event with id 7. -/
theorem event_monotonicity_witness :
    (7 : Int) ∈ storedIds
      (update_games_list id [pbpDelta] [("NBA_1", sampleLastPbp)]).1
      "NBA_1" ∧
    ¬ (itemId (.vDict [("id", .vStr "8")]) = .ok 7) :=
  ⟨event_monotonicity.1 id [pbpDelta] [("NBA_1", sampleLastPbp)] "NBA_1" 7
      (by decide),
   event_monotonicity.2 sampleLastPbp pbpPayload {7} 7
      [.vDict [("id", .vStr "8")]] rfl (by decide) rfl
      (.vDict [("id", .vStr "8")]) (by simp)⟩

/-- Witness for the amended C8 at a `"0"`-flagged response. -/
theorem failed_fetch_dropped_witness :
    response_to_game_data (some (.vDict [("success", .vStr "0")])) =
      .ok none ∧
    manager_get_game_changes id [] sampleGS
      (some (.vDict [("success", .vStr "0")])) = .ok none ∧
    cycle_changes id []
        ([] ++ (sampleGS, some (.vDict [("success", .vStr "0")])) :: []) =
      cycle_changes id [] ([] ++ []) :=
  have hb : badFetchResult (some (.vDict [("success", .vStr "0")])) :=
    Or.inr ⟨_, rfl, Or.inl rfl⟩
  ⟨(failed_fetch_dropped _ hb).1,
   (failed_fetch_dropped _ hb).2.1 id [] sampleGS,
   (failed_fetch_dropped _ hb).2.2 id [] sampleGS [] []⟩

/-- Witness for C9: applying `sampleDelta` to a store holding
`sampleLast`. -/
theorem apply_delta_frame_witness :
    ∃ li',
      lookupS (update_games_list id [sampleDelta]
          [(sampleGS.key, sampleLast)]).1 sampleDelta.game_short.key =
        some li' ∧
      li'.game_short = sampleLast.game_short ∧
      (∀ v, sampleDelta.status = some v → li'.status = v) ∧
      (sampleDelta.status = none → li'.status = sampleLast.status) ∧
      (∀ v, sampleDelta.gamedatetime = some v → li'.gamedatetime = v) ∧
      (sampleDelta.gamedatetime = none →
        li'.gamedatetime = sampleLast.gamedatetime) ∧
      (∀ v, sampleDelta.score_visitor = some v →
        li'.score_visitor = some v) ∧
      (sampleDelta.score_visitor = none →
        li'.score_visitor = sampleLast.score_visitor) ∧
      (∀ v, sampleDelta.score_home = some v → li'.score_home = some v) ∧
      (sampleDelta.score_home = none →
        li'.score_home = sampleLast.score_home) ∧
      (∀ v, sampleDelta.score_overtime = some v →
        li'.score_overtime = some v) ∧
      (sampleDelta.score_overtime = none →
        li'.score_overtime = sampleLast.score_overtime) ∧
      (∀ k, k ≠ sampleDelta.game_short.key →
        lookupS (update_games_list id [sampleDelta]
            [(sampleGS.key, sampleLast)]).1 k =
          lookupS [(sampleGS.key, sampleLast)] k) :=
  apply_delta_frame id sampleDelta [(sampleGS.key, sampleLast)] sampleLast
    rfl

theorem digitVal_of_isDigit (c : Char) (h : c.isDigit) :
    digitVal c = some (c.toNat - 48) := by
  simp [digitVal, h]

theorem digit_ne_dash (c : Char) (h : c.isDigit) : c ≠ '-' := by
  intro hc
  rw [hc] at h
  exact absurd h (by decide)

theorem one_le_daysInMonth (y m : Nat) : 1 ≤ daysInMonth y m := by
  unfold daysInMonth
  split_ifs <;> omega

theorem replace00_cons (c : Char) (l : List Char) :
    replace00 (c :: l) =
      if c = '-' ∧ l.take 2 = ['0', '0'] then
        '-' :: '0' :: '1' :: replace00 (l.drop 2)
      else c :: replace00 l := by
  rw [replace00.eq_def]

theorem replace00_nil : replace00 [] = [] := by
  rw [replace00.eq_def]

theorem replace00_cons_of_ne (c : Char) (l : List Char) (h : c ≠ '-') :
    replace00 (c :: l) = c :: replace00 l := by
  rw [replace00_cons, if_neg]
  exact fun hc => h hc.1

theorem replace00_dash_of_ne (l : List Char) (h : l.take 2 ≠ ['0', '0']) :
    replace00 ('-' :: l) = '-' :: replace00 l := by
  rw [replace00_cons, if_neg]
  exact fun hc => h hc.2

theorem replace00_hit (l : List Char) :
    replace00 ('-' :: '0' :: '0' :: l) =
      '-' :: '0' :: '1' :: replace00 l := by
  rw [replace00_cons, if_pos ⟨rfl, rfl⟩]
  rfl

theorem suffix00_pos (l7 : List Char) :
    List.isSuffixOf ['-', '0', '0'] (l7 ++ ['-', '0', '0']) = true :=
  List.isSuffixOf_iff_suffix.mpr (List.suffix_append l7 _)

theorem suffix00_neg (y1 y2 y3 y4 m1 m2 d1 d2 : Char)
    (hd : ¬ (d1 = '0' ∧ d2 = '0')) :
    List.isSuffixOf ['-', '0', '0']
      [y1, y2, y3, y4, '-', m1, m2, '-', d1, d2] = false := by
  apply Bool.eq_false_iff.mpr
  rw [ne_eq, List.isSuffixOf_iff_suffix]
  rintro ⟨t, ht⟩
  have hlen : t.length = 7 := by
    have := congrArg List.length ht
    simp at this
    omega
  have h1 : List.drop t.length (t ++ ['-', '0', '0']) = ['-', '0', '0'] :=
    List.drop_left t _
  rw [ht, hlen] at h1
  simp at h1
  exact hd h1

theorem fixGameday_00 (y1 y2 y3 y4 m1 m2 : Char)
    (h1 : y1.isDigit = true) (h2 : y2.isDigit = true)
    (h3 : y3.isDigit = true) (h4 : y4.isDigit = true)
    (h5 : m1.isDigit = true) (h6 : m2.isDigit = true)
    (hmm : ¬ (m1 = '0' ∧ m2 = '0')) :
    fixGameday [y1, y2, y3, y4, '-', m1, m2, '-', '0', '0'] =
      [y1, y2, y3, y4, '-', m1, m2, '-', '0', '1'] := by
  have hs : List.isSuffixOf ['-', '0', '0']
      [y1, y2, y3, y4, '-', m1, m2, '-', '0', '0'] = true := by
    have := suffix00_pos [y1, y2, y3, y4, '-', m1, m2]
    simpa using this
  have htk : List.take 2 ([m1, m2, '-', '0', '0'] : List Char) ≠
      ['0', '0'] := by
    intro hc
    apply hmm
    have : ([m1, m2] : List Char) = ['0', '0'] := hc
    injection this with ha hb
    injection hb with hb _
    exact ⟨ha, hb⟩
  unfold fixGameday
  rw [if_pos hs,
    replace00_cons_of_ne _ _ (digit_ne_dash y1 h1),
    replace00_cons_of_ne _ _ (digit_ne_dash y2 h2),
    replace00_cons_of_ne _ _ (digit_ne_dash y3 h3),
    replace00_cons_of_ne _ _ (digit_ne_dash y4 h4),
    replace00_dash_of_ne _ htk,
    replace00_cons_of_ne _ _ (digit_ne_dash m1 h5),
    replace00_cons_of_ne _ _ (digit_ne_dash m2 h6),
    replace00_hit, replace00_nil]

theorem fixGameday_keep (y1 y2 y3 y4 m1 m2 d1 d2 : Char)
    (hd : ¬ (d1 = '0' ∧ d2 = '0')) :
    fixGameday [y1, y2, y3, y4, '-', m1, m2, '-', d1, d2] =
      [y1, y2, y3, y4, '-', m1, m2, '-', d1, d2] := by
  unfold fixGameday
  rw [suffix00_neg y1 y2 y3 y4 m1 m2 d1 d2 hd]
  simp

theorem parseDate_digits (y1 y2 y3 y4 m1 m2 d1 d2 : Char)
    (h1 : y1.isDigit = true) (h2 : y2.isDigit = true)
    (h3 : y3.isDigit = true) (h4 : y4.isDigit = true)
    (h5 : m1.isDigit = true) (h6 : m2.isDigit = true)
    (h7 : d1.isDigit = true) (h8 : d2.isDigit = true)
    (hy : 1 ≤ digits4 y1 y2 y3 y4)
    (hm1 : 1 ≤ digits2 m1 m2) (hm2 : digits2 m1 m2 ≤ 12)
    (hd1 : 1 ≤ digits2 d1 d2)
    (hd2 : digits2 d1 d2 ≤ daysInMonth (digits4 y1 y2 y3 y4)
      (digits2 m1 m2)) :
    parseDate [y1, y2, y3, y4, '-', m1, m2, '-', d1, d2] =
      some (digits4 y1 y2 y3 y4, digits2 m1 m2, digits2 d1 d2) := by
  simp only [parseDate, digitVal_of_isDigit _ h1, digitVal_of_isDigit _ h2,
    digitVal_of_isDigit _ h3, digitVal_of_isDigit _ h4,
    digitVal_of_isDigit _ h5, digitVal_of_isDigit _ h6,
    digitVal_of_isDigit _ h7, digitVal_of_isDigit _ h8]
  rw [if_pos]
  · rfl
  · exact ⟨hy, hm1, hm2, hd1, hd2⟩

theorem parseDateTime_shape (c1 c2 c3 c4 c5 c6 c7 c8 c9 c10 : Char)
    (ts : List Char) :
    parseDateTime (c1 :: c2 :: c3 :: c4 :: c5 :: c6 :: c7 :: c8 :: c9 ::
        c10 :: ' ' :: ts) =
      match parseDate [c1, c2, c3, c4, c5, c6, c7, c8, c9, c10],
          parseHM ts with
      | some (y, m, d), some (h, mi) => some (y, m, d, h, mi)
      | _, _ => none := rfl

theorem digits2_01 : digits2 '0' '1' = 1 := by decide

theorem get_game_datetime_eq (nyToUtc : Int → Int) (d : NValue)
    (gd : String) (stv : NValue)
    (hgd : getKey d "gameday" = .ok (.vStr gd))
    (hst : getKey d "starttime" = .ok stv) :
    get_game_datetime nyToUtc d =
      match stv with
      | .vDict _ =>
        match parseDate (fixGameday gd.data) with
        | some (y, m, dd) => .ok (nyToUtc (toMinutes y m dd 0 0))
        | none => .error ()
      | .vStr st =>
        match parseDateTime (fixGameday gd.data ++ ' ' :: st.data) with
        | some (y, m, dd, h, mi) => .ok (nyToUtc (toMinutes y m dd h mi))
        | none => .error () := by
  simp only [get_game_datetime, hgd, okBind, asStr, hst]
  cases stv <;> rfl

/-- C10: `get_game_datetime` is total over the documented payload shapes and
normalizes the edge cases as described: for a payload whose `"gameday"` is a
zero-padded digit date string (month 01–12, year ≥ 1), (a) a gameday ending
in `"-00"` is parsed as day `01` of that month; (b) a dict-shaped
`"starttime"` placeholder yields midnight of the gameday; (c) a string
`"starttime"` parseable as `"%H:%M"` is appended to the gameday; and in all
cases the result is `.ok` of the `America/New_York → UTC` conversion
(`nyToUtc`, the pytz conversion held abstract) applied to the parsed naive
local time. -/
theorem get_game_datetime_shapes (nyToUtc : Int → Int) (d : NValue)
    (gd : String) (stv : NValue) (y1 y2 y3 y4 m1 m2 d1 d2 : Char)
    (hgd : getKey d "gameday" = .ok (.vStr gd))
    (hst : getKey d "starttime" = .ok stv)
    (hchars : gd.data = [y1, y2, y3, y4, '-', m1, m2, '-', d1, d2])
    (h1 : y1.isDigit = true) (h2 : y2.isDigit = true)
    (h3 : y3.isDigit = true) (h4 : y4.isDigit = true)
    (h5 : m1.isDigit = true) (h6 : m2.isDigit = true)
    (h7 : d1.isDigit = true) (h8 : d2.isDigit = true)
    (hy : 1 ≤ digits4 y1 y2 y3 y4)
    (hm1 : 1 ≤ digits2 m1 m2) (hm2 : digits2 m1 m2 ≤ 12) :
    (d1 = '0' → d2 = '0' →
      ((∀ es, stv = .vDict es →
        get_game_datetime nyToUtc d =
          .ok (nyToUtc (toMinutes (digits4 y1 y2 y3 y4)
            (digits2 m1 m2) 1 0 0))) ∧
       (∀ ts h mi, stv = .vStr ts → parseHM ts.data = some (h, mi) →
        get_game_datetime nyToUtc d =
          .ok (nyToUtc (toMinutes (digits4 y1 y2 y3 y4)
            (digits2 m1 m2) 1 h mi))))) ∧
    (¬ (d1 = '0' ∧ d2 = '0') → 1 ≤ digits2 d1 d2 →
      digits2 d1 d2 ≤ daysInMonth (digits4 y1 y2 y3 y4) (digits2 m1 m2) →
      ((∀ es, stv = .vDict es →
        get_game_datetime nyToUtc d =
          .ok (nyToUtc (toMinutes (digits4 y1 y2 y3 y4) (digits2 m1 m2)
            (digits2 d1 d2) 0 0))) ∧
       (∀ ts h mi, stv = .vStr ts → parseHM ts.data = some (h, mi) →
        get_game_datetime nyToUtc d =
          .ok (nyToUtc (toMinutes (digits4 y1 y2 y3 y4) (digits2 m1 m2)
            (digits2 d1 d2) h mi))))) := by
  have hmm : ¬ (m1 = '0' ∧ m2 = '0') := by
    rintro ⟨rfl, rfl⟩
    exact absurd hm1 (by decide)
  have heq := get_game_datetime_eq nyToUtc d gd stv hgd hst
  constructor
  · rintro rfl rfl
    have hfix : fixGameday gd.data =
        [y1, y2, y3, y4, '-', m1, m2, '-', '0', '1'] := by
      rw [hchars]
      exact fixGameday_00 y1 y2 y3 y4 m1 m2 h1 h2 h3 h4 h5 h6 hmm
    have hpd : parseDate (fixGameday gd.data) =
        some (digits4 y1 y2 y3 y4, digits2 m1 m2, 1) := by
      rw [hfix,
        parseDate_digits y1 y2 y3 y4 m1 m2 '0' '1' h1 h2 h3 h4 h5 h6
          (by decide) (by decide) hy hm1 hm2
          (by rw [digits2_01])
          (by rw [digits2_01]; exact one_le_daysInMonth _ _),
        digits2_01]
    constructor
    · intro es hes
      subst hes
      rw [heq]
      simp only [hpd]
    · intro ts h mi hts hparse
      subst hts
      rw [heq, hfix]
      simp only [List.cons_append, List.nil_append]
      rw [parseDateTime_shape]
      rw [parseDate_digits y1 y2 y3 y4 m1 m2 '0' '1' h1 h2 h3 h4 h5 h6
          (by decide) (by decide) hy hm1 hm2
          (by rw [digits2_01])
          (by rw [digits2_01]; exact one_le_daysInMonth _ _),
        digits2_01, hparse]
  · intro hd00 hdd1 hdd2
    have hfix : fixGameday gd.data =
        [y1, y2, y3, y4, '-', m1, m2, '-', d1, d2] := by
      rw [hchars]
      exact fixGameday_keep y1 y2 y3 y4 m1 m2 d1 d2 hd00
    have hpd : parseDate (fixGameday gd.data) =
        some (digits4 y1 y2 y3 y4, digits2 m1 m2, digits2 d1 d2) := by
      rw [hfix,
        parseDate_digits y1 y2 y3 y4 m1 m2 d1 d2 h1 h2 h3 h4 h5 h6 h7 h8
          hy hm1 hm2 hdd1 hdd2]
    constructor
    · intro es hes
      subst hes
      rw [heq]
      simp only [hpd]
    · intro ts h mi hts hparse
      subst hts
      rw [heq, hfix]
      simp only [List.cons_append, List.nil_append]
      rw [parseDateTime_shape]
      rw [parseDate_digits y1 y2 y3 y4 m1 m2 d1 d2 h1 h2 h3 h4 h5 h6 h7 h8
          hy hm1 hm2 hdd1 hdd2, hparse]

/-- Witness for C10 at `samplePayload` (`gameday "2023-10-24"`, `starttime
"23:30"`), via the non-`"-00"`, string-starttime branch of
`get_game_datetime_shapes`. -/
theorem get_game_datetime_shapes_witness :
    get_game_datetime id samplePayload =
      .ok (id (toMinutes (digits4 '2' '0' '2' '3') (digits2 '1' '0')
        (digits2 '2' '4') 23 30)) :=
  ((get_game_datetime_shapes id samplePayload "2023-10-24" (.vStr "23:30")
      '2' '0' '2' '3' '1' '0' '2' '4' rfl rfl rfl (by decide) (by decide)
      (by decide) (by decide) (by decide) (by decide) (by decide)
      (by decide) (by decide) (by decide) (by decide)).2
    (by decide) (by decide) (by decide)).2 "23:30" 23 30 rfl rfl
